import Mathlib

/-!
A verification development for the predicate/statistics core of the delta
kernel: the expression model (`src/kernel/src/expressions.rs`), the
data-skipping compiler (`extract_metadata_filters` and the mask coercion in
`src/kernel/src/scan/data_skipping.rs`), and the FFI construction protocol and
schema visitor (`src/kernel/src/ffi/mod.rs`).

The embedding is shallow: Rust enums become Lean inductives, `Option`/`Result`
become `Option`/`Except`, arrow arrays become lists (`BooleanArray` is
`List (Option Bool)`: a three-valued entry per row, `none` standing for an
arrow null).  The arrow compute kernels used by the source (`and`, `or`,
`not`, `nullif`, `is_not_null`, `lt`, `lt_eq`, `gt`, `gt_eq`) are modelled by
their documented elementwise semantics.  The `FnOnce` closures returned by
`extract_metadata_filters` are pure apart from laziness, so they are modelled
by their results.
-/

namespace DeltaKernel

/-- Modelled from the spec: the `Scalar` type lives in
`src/kernel/src/expressions/scalars.rs`, which is not part of the sources;
the spec fixes the closed variant set Integer (32-bit signed),
Long (64-bit signed), String.  Widths are irrelevant here (no arithmetic is
performed on scalars), so both integer kinds carry an `Int`. -/
inductive Scalar where
  | integer : Int → Scalar
  | long : Int → Scalar
  | string : String → Scalar
deriving DecidableEq, Repr

/-- `BinaryOperator` from src/kernel/src/expressions.rs. -/
inductive BinaryOperator where
  | and
  | or
  | plus
  | minus
  | multiply
  | divide
  | lessThan
  | lessThanOrEqual
  | greaterThan
  | greaterThanOrEqual
  | equal
  | notEqual
deriving DecidableEq, Repr

/-- `UnaryOperator` from src/kernel/src/expressions.rs. -/
inductive UnaryOperator where
  | not
  | isNull
deriving DecidableEq, Repr

/-- `Expression` from src/kernel/src/expressions.rs. -/
inductive Expression where
  | literal : Scalar → Expression
  | column : String → Expression
  | binaryOperation : BinaryOperator → Expression → Expression → Expression
  | unaryOperation : UnaryOperator → Expression → Expression
deriving DecidableEq, Repr

/-- `arrow_schema::ArrowError`, restricted to the variants the modelled
kernels can produce. -/
inductive ArrowError where
  | schemaError : String → ArrowError
  | computeError : String → ArrowError
  | invalidArgument : String → ArrowError
deriving DecidableEq, Repr

/-- An arrow `BooleanArray`: one three-valued entry per row (`none` = null). -/
abbrev BooleanArray := List (Option Bool)

/-- `type MetadataFilterResult = Result<BooleanArray, ArrowError>` from
src/kernel/src/expressions.rs. -/
abbrev MetadataFilterResult := Except ArrowError BooleanArray

/-- An arrow `Arc<dyn Array>` as it can appear inside the statistics record
batch: a typed primitive column, or a nested struct column. -/
inductive ColumnArray where
  | int32 : List (Option Int) → ColumnArray
  | int64 : List (Option Int) → ColumnArray
  | utf8 : List (Option String) → ColumnArray
  | structCol : List (String × ColumnArray) → ColumnArray

/-- An arrow `RecordBatch`: named top-level columns. -/
structure RecordBatch where
  columns : List (String × ColumnArray)

/-- `RecordBatch::column_by_name` / `StructArray::column_by_name`. -/
def column_by_name (fields : List (String × ColumnArray)) (name : String) :
    Option ColumnArray :=
  (fields.find? fun p => p.1 == name).map fun p => p.2

/-- `Expression::cast_column::<StructArray>` from expressions.rs: fails with a
schema error when the column is absent or is not a struct array. -/
def cast_column_struct (name : String) (column : Option ColumnArray) :
    Except ArrowError (List (String × ColumnArray)) :=
  match column with
  | none => .error (.schemaError ("No such column: " ++ name))
  | some (ColumnArray.structCol fields) => .ok fields
  | some _ => .error (.schemaError (name ++ " is not StructArray"))

/-- `get_stats_col` closure inside `extract_metadata_filters`: resolve
`stat_name` as a struct column of the batch, walk `nested_names` (always empty
in the current source), and fetch `col_name` inside it. -/
def get_stats_col (stats : RecordBatch) (stat_name : String)
    (nested_names : List String) (col_name : String) :
    Except ArrowError ColumnArray := do
  let top ← cast_column_struct stat_name (column_by_name stats.columns stat_name)
  let fields ← nested_names.foldlM
    (fun fields n => cast_column_struct n (column_by_name fields n)) top
  match column_by_name fields col_name with
  | some col => .ok col
  | none => .error (.schemaError ("No such column: " ++ col_name))

/-- `extract_column` closure inside `extract_metadata_filters`: only a bare
column reference resolves (dotted paths are not split, see the TODO in the
source); the lookup result, error included, is wrapped in `some`. -/
def extract_column (stats : RecordBatch) (stat_name : String) (e : Expression) :
    Option (Except ArrowError ColumnArray) :=
  match e with
  | .column name => some (get_stats_col stats stat_name [] name)
  | _ => none

/-- An arrow `Datum` produced for a literal:
`PrimitiveArray::<Int32Type/Int64Type>::new_scalar`. -/
inductive Datum where
  | int32Scalar : Int → Datum
  | int64Scalar : Int → Datum
deriving DecidableEq, Repr

/-- `extract_literal` closure inside `extract_metadata_filters`: only integer
and long literals convert; every other scalar kind is a soft failure. -/
def extract_literal (e : Expression) : Option Datum :=
  match e with
  | .literal (Scalar.long v) => some (.int64Scalar v)
  | .literal (Scalar.integer v) => some (.int32Scalar v)
  | _ => none

/-- The four comparison kernels from `arrow_ord::cmp` used by the source. -/
inductive CmpOp where
  | lt
  | ltEq
  | gt
  | gtEq
deriving DecidableEq, Repr

def cmpInt : CmpOp → Int → Int → Bool
  | .lt, a, b => a < b
  | .ltEq, a, b => a ≤ b
  | .gt, a, b => a > b
  | .gtEq, a, b => a ≥ b

/-- `arrow_ord::cmp` of a column against a scalar datum: elementwise with null
propagation when the types line up, an invalid-argument error otherwise. -/
def cmpArrayDatum (op : CmpOp) (col : ColumnArray) (d : Datum) :
    MetadataFilterResult :=
  match col, d with
  | .int32 xs, .int32Scalar v =>
      .ok (xs.map fun x => x.map fun a => cmpInt op a v)
  | .int64 xs, .int64Scalar v =>
      .ok (xs.map fun x => x.map fun a => cmpInt op a v)
  | _, _ => .error (.invalidArgument "Invalid comparison operation")

/-- `arrow_ord::cmp` of a scalar datum against a column (used for
`lt_eq(literal, &max_col)` in the equality rule). -/
def cmpDatumArray (op : CmpOp) (d : Datum) (col : ColumnArray) :
    MetadataFilterResult :=
  match col, d with
  | .int32 xs, .int32Scalar v =>
      .ok (xs.map fun x => x.map fun a => cmpInt op v a)
  | .int64 xs, .int64Scalar v =>
      .ok (xs.map fun x => x.map fun a => cmpInt op v a)
  | _, _ => .error (.invalidArgument "Invalid comparison operation")

/-- `arrow_arith::boolean::and`: elementwise conjunction with null
propagation (either side null gives null); length mismatch is a compute
error. -/
def arrowAnd (a b : BooleanArray) : MetadataFilterResult :=
  if a.length = b.length then
    .ok (List.zipWith (fun x y => match x, y with
      | some x, some y => some (x && y)
      | _, _ => none) a b)
  else .error (.computeError "Cannot perform bitwise operation on arrays of different length")

/-- `arrow_arith::boolean::or`: elementwise disjunction with null
propagation. -/
def arrowOr (a b : BooleanArray) : MetadataFilterResult :=
  if a.length = b.length then
    .ok (List.zipWith (fun x y => match x, y with
      | some x, some y => some (x || y)
      | _, _ => none) a b)
  else .error (.computeError "Cannot perform bitwise operation on arrays of different length")

/-- Rust `Option::zip`: `some` exactly when both sides are `some`. -/
def optionZip {α β : Type} : Option α → Option β → Option (α × β)
  | some a, some b => some (a, b)
  | _, _ => none

/-- `Expression::extract_metadata_filters` from expressions.rs.  The source
returns `Option<Box<dyn FnOnce() -> MetadataFilterResult>>`; the thunk is
pure, so it is modelled by its eventual result. -/
def extract_metadata_filters : Expression → RecordBatch → Option MetadataFilterResult
  | .binaryOperation .and left right, stats =>
    match extract_metadata_filters left stats, extract_metadata_filters right stats with
    | some l, some r => some (l.bind fun la => r.bind fun ra => arrowAnd la ra)
    -- if one leg of the AND is missing, it degenerates to the other leg
    | l, r => l.or r
  | .binaryOperation .or left right, stats =>
    -- OR is valid only if both legs are valid
    (optionZip (extract_metadata_filters left stats) (extract_metadata_filters right stats)).map
      fun p => p.1.bind fun la => p.2.bind fun ra => arrowOr la ra
  | .binaryOperation op left right, stats =>
    let min_column := extract_column stats "minValues" left
    let max_column := extract_column stats "maxValues" left
    let literal := extract_literal right
    match op with
    | .lessThan =>
      (optionZip min_column literal).map fun p => p.1.bind fun c => cmpArrayDatum .lt c p.2
    | .lessThanOrEqual =>
      (optionZip min_column literal).map fun p => p.1.bind fun c => cmpArrayDatum .ltEq c p.2
    | .greaterThan =>
      (optionZip max_column literal).map fun p => p.1.bind fun c => cmpArrayDatum .gt c p.2
    | .greaterThanOrEqual =>
      (optionZip max_column literal).map fun p => p.1.bind fun c => cmpArrayDatum .gtEq c p.2
    | .equal =>
      -- equality compares the literal against both min and max stat columns
      (optionZip (optionZip min_column max_column) literal).map fun p =>
        p.1.1.bind fun mn =>
          (cmpArrayDatum .ltEq mn p.2).bind fun c1 =>
            p.1.2.bind fun mx =>
              (cmpDatumArray .ltEq p.2 mx).bind fun c2 =>
                arrowAnd c1 c2
    | _ => none -- incompatible operator
  | _, _ => none

/-! The mask coercion of `data_skipping_filter`
(src/kernel/src/scan/data_skipping.rs, line 69):
`is_not_null(&nullif(&skipping_vector, &not(&skipping_vector)?)?)?`. -/

/-- `arrow_arith::boolean::not`: elementwise negation preserving nulls (its
`Result` wrapper never fails on a boolean array). -/
def arrow_not (a : BooleanArray) : BooleanArray :=
  a.map (Option.map fun b => !b)

/-- `arrow_select::nullif::nullif`: the left entry is nulled exactly where the
right (boolean) entry is a valid `true`; a null or `false` condition keeps the
left entry.  Length mismatch is an error. -/
def arrow_nullif (left cond : BooleanArray) : Except ArrowError BooleanArray :=
  if left.length = cond.length then
    .ok (List.zipWith (fun l c => match c with
      | some true => none
      | _ => l) left cond)
  else .error (.computeError "Cannot perform comparison on arrays of different length")

/-- `arrow_arith::boolean::is_not_null`: a null-free boolean array marking the
valid entries. -/
def arrow_is_not_null (a : BooleanArray) : List Bool :=
  a.map Option.isSome

/-- The final mask computation of `data_skipping_filter` applied to the raw
three-valued skipping vector. -/
def data_skipping_mask (skipping_vector : BooleanArray) :
    Except ArrowError (List Bool) :=
  (arrow_nullif skipping_vector (arrow_not skipping_vector)).map arrow_is_not_null

/-! ## `Expression::walk` and `Expression::references` (expressions.rs) -/

/-- Node count of an expression; only a termination measure for the iterative
walk, not part of the source. -/
def Expression.size : Expression → Nat
  | .literal _ => 1
  | .column _ => 1
  | .binaryOperation _ l r => 1 + l.size + r.size
  | .unaryOperation _ e => 1 + e.size

/-- Total size of a work stack (termination measure). -/
def stackSize (l : List Expression) : Nat := (l.map Expression.size).sum

/-- `Expression::walk` from expressions.rs: the iterative explicit-stack
traversal, given as the list of nodes in the order the iterator yields them.
The stack is a Rust `Vec`: `push(left); push(right)` means the right child is
popped (hence yielded) first. -/
def walk_loop : List Expression → List Expression
  | [] => []
  | .literal s :: stack => .literal s :: walk_loop stack
  | .column n :: stack => .column n :: walk_loop stack
  | .binaryOperation op l r :: stack =>
      .binaryOperation op l r :: walk_loop (r :: l :: stack)
  | .unaryOperation op e :: stack =>
      .unaryOperation op e :: walk_loop (e :: stack)
termination_by l => stackSize l
decreasing_by all_goals (simp [stackSize, Expression.size]; try omega)

/-- `Expression::walk` started from a single root. -/
def Expression.walk (e : Expression) : List Expression := walk_loop [e]

/-- The loop body of `Expression::references`: insert every column name
yielded by the walk into the set. -/
def refStep (set : Finset String) (x : Expression) : Finset String :=
  match x with
  | .column name => insert name set
  | _ => set

/-- `Expression::references` from expressions.rs (`HashSet<&str>` becomes
`Finset String`). -/
def Expression.references (e : Expression) : Finset String :=
  e.walk.foldl refStep ∅

/-- The visit order of `walk` as a structural function: the node itself, then
the right subtree, then the left (the right child sits on top of the stack).
Used to relate the iterative loop to structural recursion. -/
def visitSeq : Expression → List Expression
  | .literal s => [.literal s]
  | .column n => [.column n]
  | .binaryOperation op l r => .binaryOperation op l r :: (visitSeq r ++ visitSeq l)
  | .unaryOperation op e => .unaryOperation op e :: visitSeq e

/-- Spec-side definition for C8 ("the exact set of distinct column names
reachable from the tree"): the structural union of the column names. -/
def referencedColumns : Expression → Finset String
  | .literal _ => ∅
  | .column n => {n}
  | .binaryOperation _ l r => referencedColumns l ∪ referencedColumns r
  | .unaryOperation _ e => referencedColumns e

/-! ## The handle table and construction protocol (ffi/mod.rs) -/

/-- `ReferenceSet<T>` from ffi/mod.rs: integer ids mapped to owned values
(the `HashMap` is modelled as an association list; the states reachable
through `insert`/`take` never hold two bindings of one key), plus the next-id
counter. -/
structure ReferenceSet (T : Type) where
  map : List (Nat × T)
  id : Nat

/-- `HashMap::remove` on the association-list model: drop every binding of
key `i`. -/
def assocErase {T : Type} (m : List (Nat × T)) (i : Nat) : List (Nat × T) :=
  m.filter fun p => p.1 != i

/-- `Default for ReferenceSet` (used by `ReferenceSet::new`): empty map,
counter seeded at 1. -/
def ReferenceSet.new {T : Type} : ReferenceSet T := ⟨[], 1⟩

/-- `ReferenceSet::insert`: hand out the current counter value as the fresh
id, bump the counter, store the value; never fails. -/
def ReferenceSet.insert {T : Type} (s : ReferenceSet T) (value : T) :
    Nat × ReferenceSet T :=
  (s.id, ⟨(s.id, value) :: assocErase s.map s.id, s.id + 1⟩)

/-- `ReferenceSet::take`: remove and return the value bound to `i`, if
present. -/
def ReferenceSet.take {T : Type} (s : ReferenceSet T) (i : Nat) :
    Option T × ReferenceSet T :=
  match s.map.find? (fun p => p.1 == i) with
  | some p => (some p.2, ⟨assocErase s.map i, s.id⟩)
  | none => (none, s)

/-- `ReferenceSet::contains`. -/
def ReferenceSet.contains {T : Type} (s : ReferenceSet T) (i : Nat) : Bool :=
  (s.map.find? fun p => p.1 == i).isSome

/-- `KernelExpressionVisitorState` from ffi/mod.rs. -/
structure KernelExpressionVisitorState where
  inflight_expressions : ReferenceSet Expression

/-- `KernelExpressionVisitorState::new`. -/
def KernelExpressionVisitorState.new : KernelExpressionVisitorState :=
  ⟨ReferenceSet.new⟩

/-- `wrap_expression` from ffi/mod.rs. -/
def wrap_expression (state : KernelExpressionVisitorState) (expr : Expression) :
    Nat × KernelExpressionVisitorState :=
  let p := state.inflight_expressions.insert expr
  (p.1, ⟨p.2⟩)

/-- `unwrap_kernel_expression` from ffi/mod.rs (the `Box` around the taken
expression is transparent here). -/
def unwrap_kernel_expression (state : KernelExpressionVisitorState)
    (exprid : Nat) : Option Expression × KernelExpressionVisitorState :=
  let p := state.inflight_expressions.take exprid
  (p.1, ⟨p.2⟩)

/-- `visit_expression_binary` from ffi/mod.rs: take both operands (in
argument order), and only then decide: both present wraps a new
`BinaryOperation`, otherwise the invalid handle 0 is returned. -/
def visit_expression_binary (state : KernelExpressionVisitorState)
    (op : BinaryOperator) (a b : Nat) : Nat × KernelExpressionVisitorState :=
  let p := unwrap_kernel_expression state a
  let q := unwrap_kernel_expression p.2 b
  match optionZip p.1 q.1 with
  | some lr => wrap_expression q.2 (.binaryOperation op lr.1 lr.2)
  | none => (0, q.2) -- invalid child gives invalid node

/-- The engine iterator of `visit_expression_and` modelled as the list of raw
child handles it yields, combined with the stateful
`flat_map(unwrap_kernel_expression)`: the expressions that resolve, in pull
order, plus the state after all the takes.  (The Rust iterator is lazy, but
by the time `visit_expression_and` returns it has always been pulled to
exhaustion, and a failed take leaves the state unchanged, so the eager model
is state-equivalent.) -/
def unwrap_children :
    KernelExpressionVisitorState → List Nat →
      List Expression × KernelExpressionVisitorState
  | state, [] => ([], state)
  | state, c :: rest =>
    let p := unwrap_kernel_expression state c
    let q := unwrap_children p.2 rest
    match p.1 with
    | some e => (e :: q.1, q.2)
    | none => q

/-- `visit_expression_and` from ffi/mod.rs: no valid child gives handle 0;
one valid child is re-wrapped bare; two or more are left-folded into a
left-associated chain of binary AND nodes. -/
def visit_expression_and (state : KernelExpressionVisitorState)
    (children : List Nat) : Nat × KernelExpressionVisitorState :=
  let p := unwrap_children state children
  match p.1 with
  | [] => (0, p.2)
  | [e] => wrap_expression p.2 e
  | e1 :: e2 :: rest =>
    wrap_expression p.2
      (rest.foldl (fun acc c => Expression.binaryOperation .and acc c)
        (Expression.binaryOperation .and e1 e2))

/-- `visit_expression_lt` from ffi/mod.rs. -/
def visit_expression_lt (state : KernelExpressionVisitorState) (a b : Nat) :
    Nat × KernelExpressionVisitorState :=
  visit_expression_binary state .lessThan a b

/-- `visit_expression_column` from ffi/mod.rs. -/
def visit_expression_column (state : KernelExpressionVisitorState)
    (name : String) : Nat × KernelExpressionVisitorState :=
  wrap_expression state (.column name)

/-- `visit_expression_literal_string` from ffi/mod.rs. -/
def visit_expression_literal_string (state : KernelExpressionVisitorState)
    (value : String) : Nat × KernelExpressionVisitorState :=
  wrap_expression state (.literal (.string value))

/-- `visit_expression_literal_long` from ffi/mod.rs. -/
def visit_expression_literal_long (state : KernelExpressionVisitorState)
    (value : Int) : Nat × KernelExpressionVisitorState :=
  wrap_expression state (.literal (.long value))

/-- One operation against the handle table; used to state the C6 freshness
invariant over arbitrary operation sequences. -/
inductive RefOp where
  | insertOp : Expression → RefOp
  | takeOp : Nat → RefOp

/-- Run one operation, keeping only the table. -/
def runRefOp (s : ReferenceSet Expression) : RefOp → ReferenceSet Expression
  | .insertOp v => (s.insert v).2
  | .takeOp i => (s.take i).2

/-- The handles handed out by the inserts of an operation sequence, in
order. -/
def assignedHandles (s : ReferenceSet Expression) :
    List RefOp → List Nat
  | [] => []
  | .insertOp v :: rest => (s.insert v).1 :: assignedHandles (s.insert v).2 rest
  | .takeOp i :: rest => assignedHandles (s.take i).2 rest

/-! ## The schema visitor driver (ffi/mod.rs, `visit_schema`) -/

/-- Modelled from the spec: the logical primitive types of `crate::schema`
(whose source is not part of the repository snapshot).  `boolean` stands in
for the types beyond {integer, long, string} that the visitor does not
support. -/
inductive PrimitiveType where
  | integer
  | long
  | string
  | boolean
deriving DecidableEq, Repr

/-- Modelled from the spec: `crate::schema::DataType` (source not in the
snapshot): a primitive type or a nested struct.  A struct is its `fields`
vector; each `StructField { name, data_type }` is a (name, type) pair. -/
inductive DataType where
  | primitive : PrimitiveType → DataType
  | structType : List (String × DataType) → DataType

/-- `EngineSchemaVisitor` from ffi/mod.rs: the engine callbacks.  The opaque
`data: *mut c_void` engine state is `σ`; a field-list handle is `L`.
Callbacks mutate the engine state, so each returns the new state. -/
structure EngineSchemaVisitor (σ L : Type) where
  make_field_list : σ → Nat → σ × L
  free_field_list : σ → L → σ
  visit_struct : σ → L → String → L → σ
  visit_string : σ → L → String → σ
  visit_integer : σ → L → String → σ
  visit_long : σ → L → String → σ

mutual

/-- `visit_struct_fields` inside `visit_schema` (ffi/mod.rs): create a child
list with reserve hint equal to the field count, visit every field in
declaration order, return the populated list. -/
def visit_struct_fields {σ L : Type} (v : EngineSchemaVisitor σ L) (st : σ)
    (fields : List (String × DataType)) : σ × L :=
  let p := v.make_field_list st fields.length
  (visit_fields_loop v p.2 p.1 fields, p.2)

/-- The `for field in s.fields.iter()` loop of `visit_struct_fields`. -/
def visit_fields_loop {σ L : Type} (v : EngineSchemaVisitor σ L) (children : L)
    (st : σ) : List (String × DataType) → σ
  | [] => st
  | f :: rest => visit_fields_loop v children (visit_field v st children f) rest

/-- `visit_field` inside `visit_schema` (ffi/mod.rs): dispatch on the field's
logical type; an unsupported type prints a diagnostic and leaves the engine
state untouched. -/
def visit_field {σ L : Type} (v : EngineSchemaVisitor σ L) (st : σ)
    (siblings : L) (field : String × DataType) : σ :=
  match field with
  | (name, .primitive .integer) => v.visit_integer st siblings name
  | (name, .primitive .long) => v.visit_long st siblings name
  | (name, .primitive .string) => v.visit_string st siblings name
  | (name, .structType fields) =>
    let p := visit_struct_fields v st fields
    v.visit_struct p.1 siblings name p.2
  | (_, .primitive _) => st

end

/-- A record of one engine callback invocation, used to verify the traversal
order of the schema visitor.  Field lists are numbered in creation order. -/
inductive VisitEvent where
  | makeFieldList : Nat → Nat → VisitEvent
  | visitInteger : Nat → String → VisitEvent
  | visitLong : Nat → String → VisitEvent
  | visitString : Nat → String → VisitEvent
  | visitStruct : Nat → String → Nat → VisitEvent
deriving DecidableEq, Repr

/-- The tracing engine: its state is the next fresh list number paired with
the log of callback invocations, appended in call order. -/
def traceVisitor : EngineSchemaVisitor (Nat × List VisitEvent) Nat where
  make_field_list := fun st reserve =>
    ((st.1 + 1, st.2 ++ [.makeFieldList st.1 reserve]), st.1)
  free_field_list := fun st _ => st
  visit_struct := fun st siblings name children =>
    (st.1, st.2 ++ [.visitStruct siblings name children])
  visit_string := fun st siblings name =>
    (st.1, st.2 ++ [.visitString siblings name])
  visit_integer := fun st siblings name =>
    (st.1, st.2 ++ [.visitInteger siblings name])
  visit_long := fun st siblings name =>
    (st.1, st.2 ++ [.visitLong siblings name])

mutual

/-- Modelled from the spec: the expected callback sequence for visiting a
field list in declaration order under sibling list `siblings`, with `next`
the next fresh list number; returns the events and the counter afterwards. -/
def expectedFieldsTrace (siblings : Nat) (next : Nat) :
    List (String × DataType) → List VisitEvent × Nat
  | [] => ([], next)
  | f :: rest =>
    let p := expectedFieldTrace siblings next f
    let q := expectedFieldsTrace siblings p.2 rest
    (p.1 ++ q.1, q.2)

/-- Modelled from the spec: expected events for one field: a per-type visit
for the three supported primitives; for a struct, a fresh child list with
reserve hint equal to the struct's field count, then the fully populated
children, then the visit-struct callback; nothing for an unsupported type. -/
def expectedFieldTrace (siblings : Nat) (next : Nat) (f : String × DataType) :
    List VisitEvent × Nat :=
  match f with
  | (name, .primitive .integer) => ([.visitInteger siblings name], next)
  | (name, .primitive .long) => ([.visitLong siblings name], next)
  | (name, .primitive .string) => ([.visitString siblings name], next)
  | (name, .structType fields) =>
    let inner := expectedFieldsTrace next (next + 1) fields
    (.makeFieldList next fields.length :: inner.1 ++ [.visitStruct siblings name next],
      inner.2)
  | (_, .primitive _) => ([], next)

end

/-- Statement of the C9 refinement for `visit_struct_fields` under the
tracing engine: the driver produces exactly the expected events, the final
counter, and returns the list handle it created. -/
def TraceStructMotive (st : Nat × List VisitEvent)
    (fields : List (String × DataType)) : Prop :=
  visit_struct_fields traceVisitor st fields =
    (((expectedFieldsTrace st.1 (st.1 + 1) fields).2,
      st.2 ++ VisitEvent.makeFieldList st.1 fields.length ::
        (expectedFieldsTrace st.1 (st.1 + 1) fields).1), st.1)

/-- Statement of the C9 refinement for the field loop. -/
def TraceLoopMotive (children : Nat) (st : Nat × List VisitEvent)
    (fields : List (String × DataType)) : Prop :=
  visit_fields_loop traceVisitor children st fields =
    ((expectedFieldsTrace children st.1 fields).2,
      st.2 ++ (expectedFieldsTrace children st.1 fields).1)

/-- Statement of the C9 refinement for a single field. -/
def TraceFieldMotive (st : Nat × List VisitEvent) (siblings : Nat)
    (f : String × DataType) : Prop :=
  visit_field traceVisitor st siblings f =
    ((expectedFieldTrace siblings st.1 f).2,
      st.2 ++ (expectedFieldTrace siblings st.1 f).1)

/-! ## Concrete sample inputs used by witnesses and counterexamples -/

/-- A one-file statistics batch: `minValues.x = 5`, `maxValues.x = 15`. -/
def sampleStats : RecordBatch :=
  ⟨[("minValues", ColumnArray.structCol [("x", ColumnArray.int32 [some 5])]),
    ("maxValues", ColumnArray.structCol [("x", ColumnArray.int32 [some 15])])]⟩

/-- `x < 10`, a convertible comparison. -/
def sampleLt : Expression :=
  .binaryOperation .lessThan (.column "x") (.literal (.integer 10))

/-- `x > 2`, a convertible comparison. -/
def sampleGt : Expression :=
  .binaryOperation .greaterThan (.column "x") (.literal (.integer 2))

/-- `x != 2`, not convertible to a data-skipping predicate. -/
def sampleNe : Expression :=
  .binaryOperation .notEqual (.column "x") (.literal (.integer 2))

/-- The visitor state after building one literal leaf; it holds handle 1 and
its counter stands at 2. -/
def oneChildState : KernelExpressionVisitorState :=
  (visit_expression_literal_long KernelExpressionVisitorState.new 7).2

/-! # Helper lemmas -/

theorem optionZip_isSome {α β : Type} (a : Option α) (b : Option β) :
    (optionZip a b).isSome ↔ a.isSome ∧ b.isSome := by
  cases a <;> cases b <;> simp [optionZip]

theorem extract_column_isSome (s : RecordBatch) (sn : String) (e : Expression) :
    (extract_column s sn e).isSome ↔ ∃ n, e = .column n := by
  cases e <;> simp [extract_column]

theorem extract_literal_isSome (e : Expression) :
    (extract_literal e).isSome ↔
      (∃ v, e = .literal (.integer v)) ∨ (∃ v, e = .literal (.long v)) := by
  cases e with
  | literal sc => cases sc <;> simp [extract_literal]
  | column n => simp [extract_literal]
  | binaryOperation op a b => simp [extract_literal]
  | unaryOperation op a => simp [extract_literal]

theorem optionZip_none_left {α β : Type} (b : Option β) :
    optionZip (none : Option α) b = none := by
  cases b <;> rfl

theorem optionZip_none_right {α β : Type} (a : Option α) :
    optionZip a (none : Option β) = none := by
  cases a <;> rfl

theorem find?_assocErase_self {T : Type} (m : List (Nat × T)) (i : Nat) :
    (assocErase m i).find? (fun p => p.1 == i) = none := by
  rw [List.find?_eq_none]
  intro x hx
  rcases List.mem_filter.mp hx with ⟨_, hne⟩
  simpa using hne

theorem find?_assocErase_of_none {T : Type} (m : List (Nat × T)) (i j : Nat)
    (h : m.find? (fun p => p.1 == j) = none) :
    (assocErase m i).find? (fun p => p.1 == j) = none := by
  rw [List.find?_eq_none] at h ⊢
  intro x hx
  exact h x (List.mem_filter.mp hx).1

theorem take_absent {T : Type} (s : ReferenceSet T) (i : Nat)
    (h : s.contains i = false) : s.take i = (none, s) := by
  unfold ReferenceSet.contains at h
  unfold ReferenceSet.take
  cases hf : s.map.find? (fun p => p.1 == i) with
  | none => simp [hf]
  | some p => simp [hf] at h

theorem take_id {T : Type} (s : ReferenceSet T) (i : Nat) :
    ((s.take i).2).id = s.id := by
  unfold ReferenceSet.take
  cases hf : s.map.find? (fun p => p.1 == i) <;> simp [hf]

theorem contains_take_self {T : Type} (s : ReferenceSet T) (i : Nat) :
    ((s.take i).2).contains i = false := by
  unfold ReferenceSet.take ReferenceSet.contains
  cases hf : s.map.find? (fun p => p.1 == i) <;>
    simp [hf, find?_assocErase_self]

theorem contains_take_absent {T : Type} (s : ReferenceSet T) (i j : Nat)
    (h : s.contains j = false) : ((s.take i).2).contains j = false := by
  unfold ReferenceSet.contains at h
  unfold ReferenceSet.take ReferenceSet.contains
  cases hf : s.map.find? (fun p => p.1 == i) <;>
    simp [hf, h, find?_assocErase_of_none _ i j (by simpa using h)]

theorem take_insert_self {T : Type} (s : ReferenceSet T) (v : T) :
    (((s.insert v).2).take (s.insert v).1).1 = some v := by
  simp [ReferenceSet.insert, ReferenceSet.take]

theorem take_wrap_self (st : KernelExpressionVisitorState) (e : Expression) :
    (((wrap_expression st e).2).inflight_expressions.take
      st.inflight_expressions.id).1 = some e := by
  simpa [wrap_expression, ReferenceSet.insert] using
    take_insert_self st.inflight_expressions e

theorem wrap_fst (st : KernelExpressionVisitorState) (e : Expression) :
    (wrap_expression st e).1 = st.inflight_expressions.id := rfl

/-! # Claim theorems -/

/-- C1: the claim says the final mask entry is true wherever the raw
three-valued result is null (a file with null statistics is kept), false
where it is false and true where it is true.  The code
(`is_not_null(nullif(v, not(v)))`, data_skipping.rs line 69) instead maps a
null raw entry to `false`, pruning the file; valid entries pass through as
claimed.  This theorem evaluates the modelled coercion at the failing input
`[none]` and at the two valid entries. -/
theorem data_skipping_mask_drops_null_rows :
    data_skipping_mask [none] = Except.ok [false] ∧
    data_skipping_mask [some false] = Except.ok [false] ∧
    data_skipping_mask [some true] = Except.ok [true] :=
  ⟨rfl, rfl, rfl⟩

/-- C2: compiling `OR(a, b)` fails (returns `none`) exactly when either side
fails to compile; when both sides compile, the result is the combination of
the two sides with the logical-OR kernel. -/
theorem or_compile_requires_both (a b : Expression) (s : RecordBatch) :
    (extract_metadata_filters (Expression.binaryOperation .or a b) s = none ↔
      extract_metadata_filters a s = none ∨ extract_metadata_filters b s = none) ∧
    (∀ fa fb, extract_metadata_filters a s = some fa →
      extract_metadata_filters b s = some fb →
      extract_metadata_filters (Expression.binaryOperation .or a b) s =
        some (fa.bind fun la => fb.bind fun ra => arrowOr la ra)) := by
  constructor
  · cases ha : extract_metadata_filters a s <;>
      cases hb : extract_metadata_filters b s <;>
      simp [extract_metadata_filters, ha, hb, optionZip]
  · intro fa fb ha hb
    simp [extract_metadata_filters, ha, hb, optionZip]

/-- C2 witness: `(x < 10) OR (x > 2)` over the sample statistics compiles to
the OR of the two compiled sides. -/
theorem or_compile_requires_both_witness :
    extract_metadata_filters (Expression.binaryOperation .or sampleLt sampleGt)
        sampleStats =
      some ((Except.ok [some true] : MetadataFilterResult).bind fun la =>
        (Except.ok [some true] : MetadataFilterResult).bind fun ra =>
          arrowOr la ra) :=
  (or_compile_requires_both sampleLt sampleGt sampleStats).2
    (Except.ok [some true]) (Except.ok [some true]) rfl rfl

/-- C3: compiling `AND(a, b)` combines both sides with the logical-AND kernel
when both compile; when one side fails to compile the result equals compiling
the other side alone; when both fail the result is `none`. -/
theorem and_compile_degrades (a b : Expression) (s : RecordBatch) :
    (∀ fa fb, extract_metadata_filters a s = some fa →
      extract_metadata_filters b s = some fb →
      extract_metadata_filters (Expression.binaryOperation .and a b) s =
        some (fa.bind fun la => fb.bind fun ra => arrowAnd la ra)) ∧
    (extract_metadata_filters b s = none →
      extract_metadata_filters (Expression.binaryOperation .and a b) s =
        extract_metadata_filters a s) ∧
    (extract_metadata_filters a s = none →
      extract_metadata_filters (Expression.binaryOperation .and a b) s =
        extract_metadata_filters b s) ∧
    (extract_metadata_filters a s = none → extract_metadata_filters b s = none →
      extract_metadata_filters (Expression.binaryOperation .and a b) s = none) := by
  refine ⟨fun fa fb ha hb => ?_, fun hb => ?_, fun ha => ?_, fun ha hb => ?_⟩
  · simp [extract_metadata_filters, ha, hb]
  · cases ha : extract_metadata_filters a s <;>
      simp [extract_metadata_filters, ha, hb, Option.or]
  · cases hb : extract_metadata_filters b s <;>
      simp [extract_metadata_filters, ha, hb, Option.or]
  · simp [extract_metadata_filters, ha, hb, Option.or]

/-- C3 witness: `(x < 10) AND (x != 2)` over the sample statistics, where the
right leg is not convertible, compiles to exactly what the left leg alone
compiles to. -/
theorem and_compile_degrades_witness :
    extract_metadata_filters (Expression.binaryOperation .and sampleLt sampleNe)
        sampleStats =
      extract_metadata_filters sampleLt sampleStats :=
  (and_compile_degrades sampleLt sampleNe sampleStats).2.1 rfl

/-- C4: a comparison node (a binary node other than AND/OR) compiles exactly
when it is literally `column OP literal` with `OP` among `<, <=, >, >=, =`
and an integer or long literal; `<`/`<=` compare the `minValues` statistic
column against the literal, `>`/`>=` compare `maxValues`, and `=` compiles to
`minValues <= literal AND literal <= maxValues`; every other operator or
literal kind yields `none`. -/
theorem comparison_compile_shape (op : BinaryOperator) (l r : Expression)
    (s : RecordBatch) (hand : op ≠ .and) (hor : op ≠ .or) :
    ((extract_metadata_filters (Expression.binaryOperation op l r) s).isSome ↔
      (∃ n, l = .column n) ∧
      ((∃ v, r = .literal (.integer v)) ∨ (∃ v, r = .literal (.long v))) ∧
      (op = .lessThan ∨ op = .lessThanOrEqual ∨ op = .greaterThan ∨
        op = .greaterThanOrEqual ∨ op = .equal)) ∧
    (∀ n d, extract_literal r = some d →
      (extract_metadata_filters (Expression.binaryOperation .lessThan (.column n) r) s =
        some ((get_stats_col s "minValues" [] n).bind fun c =>
          cmpArrayDatum .lt c d)) ∧
      (extract_metadata_filters (Expression.binaryOperation .lessThanOrEqual (.column n) r) s =
        some ((get_stats_col s "minValues" [] n).bind fun c =>
          cmpArrayDatum .ltEq c d)) ∧
      (extract_metadata_filters (Expression.binaryOperation .greaterThan (.column n) r) s =
        some ((get_stats_col s "maxValues" [] n).bind fun c =>
          cmpArrayDatum .gt c d)) ∧
      (extract_metadata_filters (Expression.binaryOperation .greaterThanOrEqual (.column n) r) s =
        some ((get_stats_col s "maxValues" [] n).bind fun c =>
          cmpArrayDatum .gtEq c d)) ∧
      (extract_metadata_filters (Expression.binaryOperation .equal (.column n) r) s =
        some ((get_stats_col s "minValues" [] n).bind fun mn =>
          (cmpArrayDatum .ltEq mn d).bind fun c1 =>
            (get_stats_col s "maxValues" [] n).bind fun mx =>
              (cmpDatumArray .ltEq d mx).bind fun c2 =>
                arrowAnd c1 c2))) := by
  constructor
  · cases op <;> first
      | exact absurd rfl hand
      | exact absurd rfl hor
      | simp [extract_metadata_filters, optionZip_isSome, extract_column_isSome,
          extract_literal_isSome]
  · intro n d hd
    refine ⟨?_, ?_, ?_, ?_, ?_⟩ <;>
      simp [extract_metadata_filters, extract_column, hd, optionZip]

/-- C4 witness: `x < 10` over the sample statistics compiles to the
`minValues`-against-literal comparison plan. -/
theorem comparison_compile_shape_witness :
    extract_metadata_filters
        (Expression.binaryOperation .lessThan (.column "x")
          (.literal (.integer 10))) sampleStats =
      some ((get_stats_col sampleStats "minValues" [] "x").bind fun c =>
        cmpArrayDatum .lt c (.int32Scalar 10)) :=
  ((comparison_compile_shape .lessThan (.column "x") (.literal (.integer 10))
      sampleStats (by decide) (by decide)).2 "x" (.int32Scalar 10) rfl).1

/-- C5 counterexample: with exactly one resolvable child (handle 1, bound to
the literal 7), `visit_expression_and` does not return the child's handle
unchanged: the child was consumed by `take` and re-inserted, so the fresh
handle 2 is returned. -/
theorem variadic_and_returns_fresh_handle :
    (unwrap_children oneChildState [1]).1 = [Expression.literal (.long 7)] ∧
    (visit_expression_and oneChildState [1]).1 = 2 ∧
    (visit_expression_and oneChildState [1]).1 ≠ 1 :=
  ⟨rfl, rfl, by decide⟩

/-- C5 (amended): when no child resolves the variadic AND builder returns the
invalid handle 0; when exactly one child resolves it creates no wrapping AND
node but re-inserts that child's expression unchanged and returns the fresh
handle bound to it (the original child handle was consumed by `take`); when
two or more resolve it returns a fresh handle bound to the left-associated
chain of binary AND nodes folded in pull order, unresolvable children being
skipped. -/
theorem variadic_and_spec (st : KernelExpressionVisitorState)
    (children : List Nat) :
    ((unwrap_children st children).1 = [] →
      visit_expression_and st children = (0, (unwrap_children st children).2)) ∧
    (∀ e, (unwrap_children st children).1 = [e] →
      visit_expression_and st children =
        wrap_expression (unwrap_children st children).2 e ∧
      (visit_expression_and st children).1 =
        ((unwrap_children st children).2).inflight_expressions.id ∧
      (((visit_expression_and st children).2).inflight_expressions.take
        (visit_expression_and st children).1).1 = some e) ∧
    (∀ e1 e2 rest, (unwrap_children st children).1 = e1 :: e2 :: rest →
      (visit_expression_and st children).1 =
        ((unwrap_children st children).2).inflight_expressions.id ∧
      (((visit_expression_and st children).2).inflight_expressions.take
        (visit_expression_and st children).1).1 =
        some (rest.foldl (fun acc c => Expression.binaryOperation .and acc c)
          (Expression.binaryOperation .and e1 e2))) := by
  refine ⟨fun h => ?_, fun e h => ?_, fun e1 e2 rest h => ?_⟩
  · simp [visit_expression_and, h]
  · refine ⟨?_, ?_, ?_⟩ <;> simp [visit_expression_and, h, wrap_fst, take_wrap_self]
  · refine ⟨?_, ?_⟩ <;> simp [visit_expression_and, h, wrap_fst, take_wrap_self]

/-- C5 witness: applying the amended law to the one-child state: the result
handle is the fresh counter value 2, and it is bound to the bare child
expression (no AND wrapper). -/
theorem variadic_and_spec_witness :
    visit_expression_and oneChildState [1] =
      wrap_expression (unwrap_children oneChildState [1]).2
        (Expression.literal (.long 7)) ∧
    (((visit_expression_and oneChildState [1]).2).inflight_expressions.take
      (visit_expression_and oneChildState [1]).1).1 =
      some (Expression.literal (.long 7)) := by
  have h := (variadic_and_spec oneChildState [1]).2.1
    (Expression.literal (.long 7)) rfl
  exact ⟨h.1, h.2.2⟩

/-- C6: the handle table's counter is seeded at 1, every `insert` hands out
the current counter value and bumps it, `take` never changes the counter; so
over any operation sequence started from a fresh table the assigned handles
are pairwise distinct (never reused, even after removal) and never 0. -/
theorem handle_table_fresh_handles :
    (ReferenceSet.new : ReferenceSet Expression).id = 1 ∧
    (∀ (s : ReferenceSet Expression) (v : Expression),
      (s.insert v).1 = s.id ∧ ((s.insert v).2).id = s.id + 1) ∧
    (∀ (s : ReferenceSet Expression) (i : Nat), ((s.take i).2).id = s.id) ∧
    (∀ ops : List RefOp,
      (∀ h ∈ assignedHandles ReferenceSet.new ops, 1 ≤ h) ∧
      (assignedHandles ReferenceSet.new ops).Nodup) := by
  have key : ∀ (ops : List RefOp) (s : ReferenceSet Expression),
      (∀ h ∈ assignedHandles s ops, s.id ≤ h) ∧
      List.Chain' (fun x y => x < y) (assignedHandles s ops) := by
    intro ops
    induction ops with
    | nil => intro s; simp [assignedHandles]
    | cons op rest ih =>
      intro s
      cases op with
      | insertOp v =>
        have ih2 := ih (s.insert v).2
        have hbump : ((s.insert v).2).id = s.id + 1 := rfl
        have hfst : (s.insert v).1 = s.id := rfl
        constructor
        · intro h hh
          simp only [assignedHandles] at hh
          rcases List.mem_cons.mp hh with rfl | hh2
          · exact Nat.le_of_eq hfst.symm
          · have h2 := ih2.1 _ hh2
            rw [hbump] at h2
            omega
        · simp only [assignedHandles]
          refine List.chain'_cons'.mpr ⟨fun y hy => ?_, ih2.2⟩
          have hmem : y ∈ assignedHandles (s.insert v).2 rest :=
            List.mem_of_mem_head? hy
          have h2 := ih2.1 _ hmem
          rw [hbump] at h2
          rw [hfst]
          omega
      | takeOp i =>
        have ih2 := ih (s.take i).2
        have hid : ((s.take i).2).id = s.id := take_id s i
        simp only [assignedHandles]
        exact ⟨fun h hh => hid ▸ ih2.1 h hh, ih2.2⟩
  refine ⟨rfl, fun s v => ⟨rfl, rfl⟩, take_id, fun ops => ⟨?_, ?_⟩⟩
  · intro h hh
    exact (key ops ReferenceSet.new).1 h hh
  · have hchain := (key ops ReferenceSet.new).2
    have hpw := List.chain'_iff_pairwise.mp hchain
    exact hpw.imp fun hlt => Nat.ne_of_lt hlt

/-- C6 witness: after insert, take 1, insert from a fresh table the assigned
handles are 1 then 2: the second insert does not reuse the removed handle 1,
both are at least 1, and the list has no duplicates. -/
theorem handle_table_fresh_handles_witness :
    assignedHandles ReferenceSet.new
      [RefOp.insertOp (.column "x"), RefOp.takeOp 1,
        RefOp.insertOp (.column "y")] = [1, 2] ∧
    1 ≤ 2 ∧
    (assignedHandles ReferenceSet.new
      [RefOp.insertOp (.column "x"), RefOp.takeOp 1,
        RefOp.insertOp (.column "y")]).Nodup := by
  refine ⟨rfl, ?_, ?_⟩
  · exact (handle_table_fresh_handles.2.2.2
      [RefOp.insertOp (.column "x"), RefOp.takeOp 1,
        RefOp.insertOp (.column "y")]).1 2 (by decide)
  · exact (handle_table_fresh_handles.2.2.2
      [RefOp.insertOp (.column "x"), RefOp.takeOp 1,
        RefOp.insertOp (.column "y")]).2

/-- C7: a binary expression builder returns the invalid handle 0 whenever
either operand take fails; when both resolve it inserts a new
`BinaryOperation` node and returns its fresh handle; and a handle absent from
the table stays absent across the call, so a second call with the same
consumed handle returns 0 again and never resurrects the node. -/
theorem binary_builder_invalid_handle (st : KernelExpressionVisitorState)
    (op : BinaryOperator) (a b : Nat) :
    ((unwrap_kernel_expression st a).1 = none ∨
      (unwrap_kernel_expression (unwrap_kernel_expression st a).2 b).1 = none →
      (visit_expression_binary st op a b).1 = 0) ∧
    (∀ l r, (unwrap_kernel_expression st a).1 = some l →
      (unwrap_kernel_expression (unwrap_kernel_expression st a).2 b).1 = some r →
      visit_expression_binary st op a b =
        wrap_expression
          (unwrap_kernel_expression (unwrap_kernel_expression st a).2 b).2
          (.binaryOperation op l r) ∧
      (visit_expression_binary st op a b).1 =
        ((unwrap_kernel_expression (unwrap_kernel_expression st a).2
          b).2).inflight_expressions.id ∧
      (((visit_expression_binary st op a b).2).inflight_expressions.take
        (visit_expression_binary st op a b).1).1 =
        some (.binaryOperation op l r)) ∧
    (st.inflight_expressions.contains a = false →
      (visit_expression_binary st op a b).1 = 0 ∧
      ((visit_expression_binary st op a b).2).inflight_expressions.contains a =
        false) := by
  refine ⟨fun h => ?_, fun l r hl hr => ?_, fun h => ?_⟩
  · rcases h with h | h
    · simp [visit_expression_binary, h, optionZip_none_left]
    · simp [visit_expression_binary, h, optionZip_none_right]
  · refine ⟨?_, ?_, ?_⟩ <;>
      simp [visit_expression_binary, hl, hr, optionZip, wrap_fst, take_wrap_self]
  · have hta : st.inflight_expressions.take a = (none, st.inflight_expressions) :=
      take_absent _ _ h
    constructor
    · simp [visit_expression_binary, unwrap_kernel_expression, hta,
        optionZip_none_left]
    · simp [visit_expression_binary, unwrap_kernel_expression, hta,
        optionZip_none_left, contains_take_absent _ b a h]

/-- C7 witness: in the one-child state handle 5 was never assigned: the
builder returns 0, leaves 5 absent, and a second call with the same handle
returns 0 again. -/
theorem binary_builder_invalid_handle_witness :
    (visit_expression_binary oneChildState .plus 5 1).1 = 0 ∧
    (visit_expression_binary
      (visit_expression_binary oneChildState .plus 5 1).2 .plus 5 1).1 = 0 := by
  have h1 := (binary_builder_invalid_handle oneChildState .plus 5 1).2.2 rfl
  have h2 := (binary_builder_invalid_handle
    (visit_expression_binary oneChildState .plus 5 1).2 .plus 5 1).2.2 h1.2
  exact ⟨h1.1, h2.1⟩

/-- C10: when exactly one operand handle is present, the binary builder not
only returns 0: both operands were taken before validity was checked, so the
present operand has also been removed from the table — the failure is not
atomic with respect to the table's contents. -/
theorem binary_builder_consumes_surviving_operand
    (st : KernelExpressionVisitorState) (op : BinaryOperator) (a b : Nat) :
    (st.inflight_expressions.contains a = true →
      st.inflight_expressions.contains b = false →
      (visit_expression_binary st op a b).1 = 0 ∧
      ((visit_expression_binary st op a b).2).inflight_expressions.contains a =
        false ∧
      ((visit_expression_binary st op a b).2).inflight_expressions.contains b =
        false) ∧
    (st.inflight_expressions.contains a = false →
      st.inflight_expressions.contains b = true →
      (visit_expression_binary st op a b).1 = 0 ∧
      ((visit_expression_binary st op a b).2).inflight_expressions.contains a =
        false ∧
      ((visit_expression_binary st op a b).2).inflight_expressions.contains b =
        false) := by
  constructor
  · intro ha hb
    have hb1 : (((st.inflight_expressions.take a).2).contains b) = false :=
      contains_take_absent _ a b hb
    have htb : ((st.inflight_expressions.take a).2).take b =
        (none, (st.inflight_expressions.take a).2) := take_absent _ _ hb1
    refine ⟨?_, ?_, ?_⟩ <;>
      simp [visit_expression_binary, unwrap_kernel_expression, htb,
        optionZip_none_right, contains_take_self, hb1]
  · intro ha hb
    have hta : st.inflight_expressions.take a = (none, st.inflight_expressions) :=
      take_absent _ _ ha
    refine ⟨?_, ?_, ?_⟩ <;>
      simp [visit_expression_binary, unwrap_kernel_expression, hta,
        optionZip_none_left, contains_take_self,
        contains_take_absent _ b a ha]

/-- C10 witness: in the one-child state (handle 1 present, handle 9 absent)
the builder returns 0 and handle 1 is gone afterwards, in both operand
orders. -/
theorem binary_builder_consumes_surviving_operand_witness :
    ((visit_expression_binary oneChildState .plus 1 9).1 = 0 ∧
      ((visit_expression_binary oneChildState .plus 1
        9).2).inflight_expressions.contains 1 = false) ∧
    ((visit_expression_binary oneChildState .plus 9 1).1 = 0 ∧
      ((visit_expression_binary oneChildState .plus 9
        1).2).inflight_expressions.contains 1 = false) := by
  have h1 := (binary_builder_consumes_surviving_operand oneChildState .plus 1 9).1
    rfl rfl
  have h2 := (binary_builder_consumes_surviving_operand oneChildState .plus 9 1).2
    rfl rfl
  exact ⟨⟨h1.1, h1.2.1⟩, ⟨h2.1, h2.2.2⟩⟩

theorem walk_loop_nil : walk_loop [] = [] := by
  simp [walk_loop]

theorem walk_loop_cons (e : Expression) (stack : List Expression) :
    walk_loop (e :: stack) = visitSeq e ++ walk_loop stack := by
  induction e generalizing stack with
  | literal s => simp [walk_loop, visitSeq]
  | column n => simp [walk_loop, visitSeq]
  | binaryOperation op l r ihl ihr => simp [walk_loop, visitSeq, ihl, ihr]
  | unaryOperation op x ih => simp [walk_loop, visitSeq, ih]

theorem foldl_refStep_visitSeq (e : Expression) (s : Finset String) :
    (visitSeq e).foldl refStep s = s ∪ referencedColumns e := by
  induction e generalizing s with
  | literal sc => simp [visitSeq, referencedColumns, refStep]
  | column n =>
    simp [visitSeq, referencedColumns, refStep, Finset.insert_eq,
      Finset.union_comm]
  | binaryOperation op l r ihl ihr =>
    simp only [visitSeq, referencedColumns, List.foldl_cons, List.foldl_append,
      refStep, ihl, ihr]
    rw [Finset.union_assoc, Finset.union_comm (referencedColumns r)]
  | unaryOperation op x ih =>
    simp [visitSeq, referencedColumns, refStep, ih]

/-- C8: `references` returns exactly the set of distinct column names
reachable in the tree — every `Column(name)` occurring anywhere is included
and nothing else is, with no duplicates — independent of tree shape and of
the traversal order of the iterative walk. -/
theorem references_exact (e : Expression) :
    Expression.references e = referencedColumns e := by
  unfold Expression.references Expression.walk
  rw [walk_loop_cons, walk_loop_nil, List.append_nil, foldl_refStep_visitSeq]
  exact Finset.empty_union _

theorem traceVisitor_make (st : Nat × List VisitEvent) (reserve : Nat) :
    traceVisitor.make_field_list st reserve =
      ((st.1 + 1, st.2 ++ [.makeFieldList st.1 reserve]), st.1) := rfl

theorem traceVisitor_struct (st : Nat × List VisitEvent)
    (siblings : Nat) (name : String) (children : Nat) :
    traceVisitor.visit_struct st siblings name children =
      (st.1, st.2 ++ [.visitStruct siblings name children]) := rfl

theorem traceVisitor_string (st : Nat × List VisitEvent)
    (siblings : Nat) (name : String) :
    traceVisitor.visit_string st siblings name =
      (st.1, st.2 ++ [.visitString siblings name]) := rfl

theorem traceVisitor_integer (st : Nat × List VisitEvent)
    (siblings : Nat) (name : String) :
    traceVisitor.visit_integer st siblings name =
      (st.1, st.2 ++ [.visitInteger siblings name]) := rfl

theorem traceVisitor_long (st : Nat × List VisitEvent)
    (siblings : Nat) (name : String) :
    traceVisitor.visit_long st siblings name =
      (st.1, st.2 ++ [.visitLong siblings name]) := rfl

theorem schema_trace_all (st : Nat × List VisitEvent)
    (fields : List (String × DataType)) : TraceStructMotive st fields := by
  refine visit_struct_fields.induct traceVisitor TraceStructMotive
    TraceLoopMotive TraceFieldMotive ?_ ?_ ?_ ?_ ?_ ?_ ?_ ?_ st fields
  · intro st fields _p h
    have hp : _p = ((st.1 + 1, st.2 ++ [.makeFieldList st.1 fields.length]), st.1) := rfl
    rw [TraceLoopMotive, hp] at h
    simp only [] at h
    simp [TraceStructMotive, visit_struct_fields, traceVisitor_make, h]
  · intro children st
    simp [TraceLoopMotive, visit_fields_loop, expectedFieldsTrace]
  · intro children st f rest h1 h2
    simp only [TraceFieldMotive] at h1
    simp only [TraceLoopMotive, h1] at h2
    simp [TraceLoopMotive, visit_fields_loop, expectedFieldsTrace, h1, h2]
  · intro st siblings name
    simp [TraceFieldMotive, visit_field, expectedFieldTrace, traceVisitor_integer]
  · intro st siblings name
    simp [TraceFieldMotive, visit_field, expectedFieldTrace, traceVisitor_long]
  · intro st siblings name
    simp [TraceFieldMotive, visit_field, expectedFieldTrace, traceVisitor_string]
  · intro st siblings name fields h
    simp only [TraceStructMotive] at h
    simp [TraceFieldMotive, visit_field, expectedFieldTrace, traceVisitor_struct, h]
  · intro st siblings name a h1 h2 h3
    cases a with
    | integer => exact absurd rfl h1
    | long => exact absurd rfl h2
    | string => exact absurd rfl h3
    | boolean =>
      simp [TraceFieldMotive, visit_field, expectedFieldTrace]

/-- C9: driving `visit_struct_fields` with the tracing engine yields exactly
the spec-side expected callback sequence: fields are visited in declaration
order; an integer, long or string field invokes the matching per-type
callback with the enclosing sibling list and the field name; a nested struct
field first creates a fresh child list with reserve hint equal to that
struct's field count, fully populates it by recursion, and only then invokes
the visit-struct callback with the child list and the name; any other
logical type produces no callback at all (skipped, not an error). -/
theorem schema_visitor_trace (next : Nat) (evs : List VisitEvent)
    (fields : List (String × DataType)) :
    visit_struct_fields traceVisitor (next, evs) fields =
      (((expectedFieldsTrace next (next + 1) fields).2,
        evs ++ VisitEvent.makeFieldList next fields.length ::
          (expectedFieldsTrace next (next + 1) fields).1), next) :=
  schema_trace_all (next, evs) fields

end DeltaKernel
